import Mathlib

/-!
Shallow embedding of the `next-auto-logger` library (src/index.ts and
src/api.ts) and proofs of the specified properties.

JavaScript runtime effects are made explicit:
* thrown values are `JsError`; fallible computations return `Except JsError _`;
* `performance.now()` / `Date.now()` samples, generated ids and ISO
  timestamps are passed in as parameters (oracles for the runtime);
* the outcome of a network transmission is an `Except JsError Unit` parameter;
* everything the code emits (pino records, console output, HTTP posts,
  callback invocations) is collected into explicit lists of `Emission`s.
-/

deriving instance DecidableEq for Except

namespace NextAutoLogger

/-- A thrown JavaScript `Error` value (message and optional stack). -/
structure JsError where
  message : String
  stack : Option String
deriving DecidableEq, Repr

/-- The six pino severity levels. -/
inductive Level where
  | trace | debug | info | warn | error | fatal
deriving DecidableEq, Repr

/-- JS string falsiness: `a || b` for strings ("" and undefined are falsy). -/
def jsOrS (a b : String) : String := if a = "" then b else a

/-- `sub.isPrefixOf` of some suffix of `s`: JS `s.includes(sub)`. -/
def jsIncludes (s sub : String) : Bool :=
  (List.range (s.data.length + 1)).any fun i => sub.data.isPrefixOf (s.data.drop i)

/-- An open string map, in insertion order (a JS object used as a record). -/
abbrev Ctx := List (String × String)

/-- First-match lookup in a `Ctx`. -/
def ctxLookup (k : String) : Ctx → Option String
  | [] => none
  | (k2, v) :: t => if k2 = k then some v else ctxLookup k t

/-- JS object spread `{...a, ...b}`: keys of both, `b` winning on collision. -/
def mergeCtx (a b : Ctx) : Ctx :=
  a.filter (fun p => (ctxLookup p.1 b).isNone) ++ b

/-- The environment a given JS module evaluation sees: presence of the
browser global and the relevant `process.env` variables. -/
structure JsEnv where
  hasWindow : Bool
  nodeEnv : Option String
  logModule : Option String
  cwd : String
deriving DecidableEq, Repr

/-- `typeof window !== "undefined"` (src/index.ts line 13). -/
def isClient (env : JsEnv) : Bool := env.hasWindow

/-- `!isClient` (src/index.ts line 14). -/
def isServer (env : JsEnv) : Bool := !isClient env

/-- `process.env.NODE_ENV === "development"` (src/index.ts line 15). -/
def isDev (env : JsEnv) : Bool := env.nodeEnv = some "development"

/-- Discriminant of the `RequestEvent` tagged union. -/
inductive EventKind where
  | start | success | err
deriving DecidableEq, Repr

/-- A captured request body: JSON-parsed when `JSON.parse` succeeded,
otherwise the raw value. -/
inductive BodyVal where
  | parsed (j : String)
  | raw (s : String)
deriving DecidableEq, Repr

/-- The `RequestEvent` union flattened into one record: fields that only
some variants carry are `Option`s (absent = `none`). -/
structure RequestEvent where
  event : EventKind
  requestId : String
  timestamp : String
  url : String
  method : String
  library : String
  environment : String
  context : Option Ctx := none
  headers : Option Ctx := none
  body : Option BodyVal := none
  status : Option Nat := none
  statusText : Option String := none
  duration : Option Int := none
  error : Option String := none
  stack : Option String := none
deriving DecidableEq, Repr

/-- A `fetch` `Response` as far as the interceptor observes it. -/
structure Response where
  status : Nat
  statusText : String
deriving DecidableEq, Repr

/-- Everything the library visibly does while handling one event. -/
inductive Emission where
  | serverLog (level : Level) (ev : RequestEvent)
  | consoleLog (ev : RequestEvent)
  | post (endpoint : String) (ev : RequestEvent)
  | onErrorCall (e : JsError)
  | consoleWarnFail (e : JsError)
deriving DecidableEq, Repr

/-- Global configuration (src/index.ts `LoggerConfig` merged with defaults).
User hooks are modelled as Lean functions; a hook that throws returns
`Except.error`. -/
structure LoggerConfig where
  enabled : Bool
  clientLogEndpoint : String
  excludeUrls : Option (List (String ⊕ (String → Bool)))
  includeBody : Bool
  includeHeaders : Bool
  contextProvider : Option (Unit → Except JsError Ctx)
  transformLog : Option (RequestEvent → Except JsError RequestEvent)
  onError : Option (JsError → Unit)
  autoSetupInterceptors : Bool

/-- The default `globalConfig` (src/index.ts lines 147-154). -/
def defaultConfig : LoggerConfig where
  enabled := true
  clientLogEndpoint := "/api/logs"
  excludeUrls := some []
  includeBody := false
  includeHeaders := false
  contextProvider := none
  transformLog := none
  onError := none
  autoSetupInterceptors := true

/-- `shouldLog` (src/index.ts lines 166-174). -/
def shouldLog (cfg : LoggerConfig) (url : String) : Bool :=
  if !cfg.enabled then false
  else if jsIncludes url cfg.clientLogEndpoint then false
  else
    !(match cfg.excludeUrls with
      | none => false
      | some pats => pats.any fun pat =>
          match pat with
          | .inl s => jsIncludes url s
          | .inr re => re url)

/-- `sendToServerAPI` (src/index.ts lines 176-192): attempts the POST, and
on transmission failure calls `onError` when configured, else logs to the
console in development.  Never throws. -/
def sendToServerAPI (env : JsEnv) (cfg : LoggerConfig)
    (net : Except JsError Unit) (ev : RequestEvent) : List Emission :=
  if !isClient env || cfg.clientLogEndpoint = "" then []
  else
    Emission.post cfg.clientLogEndpoint ev ::
      (match net with
       | .ok _ => []
       | .error e =>
         match cfg.onError with
         | some _ => [Emission.onErrorCall e]
         | none => if isDev env then [Emission.consoleWarnFail e] else [])

/-- The dispatch tail of `logEvent` (src/index.ts lines 205-215): server
branch emits through pino at `error` severity for `request_error` events and
`info` otherwise; client branch console-logs in development and transmits. -/
def dispatchEvent (env : JsEnv) (cfg : LoggerConfig)
    (net : Except JsError Unit) (finalEvent : RequestEvent) : List Emission :=
  if isServer env then
    [Emission.serverLog
      (if finalEvent.event = EventKind.err then Level.error else Level.info)
      finalEvent]
  else
    (if isDev env then [Emission.consoleLog finalEvent] else []) ++
      sendToServerAPI env cfg net finalEvent

/-- The `transformLog` step of `logEvent` (src/index.ts line 203) followed by
dispatch; a throwing transformer propagates before anything is emitted. -/
def applyTransform (env : JsEnv) (cfg : LoggerConfig)
    (net : Except JsError Unit) (ev : RequestEvent) :
    Except JsError (List Emission) :=
  match cfg.transformLog with
  | some tf =>
    match tf ev with
    | .error e => .error e
    | .ok finalEvent => .ok (dispatchEvent env cfg net finalEvent)
  | none => .ok (dispatchEvent env cfg net ev)

/-- `logEvent` (src/index.ts lines 194-216).  Returns the state of the
caller's event object after the call (the code mutates `event.context` in
place) together with either the emissions performed or the error thrown.
Throws happen strictly before any emission. -/
def logEvent (env : JsEnv) (cfg : LoggerConfig)
    (net : Except JsError Unit) (ev : RequestEvent) :
    RequestEvent × Except JsError (List Emission) :=
  if !shouldLog cfg ev.url then (ev, .ok [])
  else
    match cfg.contextProvider with
    | some p =>
      match p () with
      | .error e => (ev, .error e)
      | .ok c =>
        let ev2 := { ev with context := some (mergeCtx (ev.context.getD []) c) }
        (ev2, applyTransform env cfg net ev2)
    | none => (ev, applyTransform env cfg net ev)

/-- `generateRequestId` (src/index.ts lines 249-253). -/
def generateRequestId (hasCrypto : Bool) (uuid : String)
    (nowMs : Nat) (rand : String) : String :=
  if hasCrypto then uuid else "req_" ++ toString nowMs ++ "_" ++ rand

/-- The first argument of `fetch`: a string, a `URL`, or a `Request`. -/
inductive FetchInput where
  | str (s : String)
  | url (s : String)
  | request (url : String)
deriving DecidableEq, Repr

/-- Url extraction from `input` (src/index.ts line 260). -/
def urlOf : FetchInput → String
  | .str s => s
  | .url s => s
  | .request u => u

/-- The parts of `RequestInit` the interceptor reads. -/
structure RequestInit where
  method : Option String
  headers : Option Ctx
  body : Option String
deriving Repr

/-- `init?.method || 'GET'` (src/index.ts line 261). -/
def methodOf (init : Option RequestInit) : String :=
  jsOrS ((init.bind (·.method)).getD "") "GET"

/-- `Math.round` of a millisecond delta. -/
def jsRound (q : ℚ) : Int := round q

/-- The `request_start` event built by the fetch interceptor
(src/index.ts lines 265-285), including the config-gated header and
best-effort JSON-parsed body capture. -/
def mkStartEvent (cfg : LoggerConfig) (rid ts url method : String)
    (init : Option RequestInit) (jsonParse : String → Option String) :
    RequestEvent :=
  let base : RequestEvent :=
    { event := .start, requestId := rid, timestamp := ts, url := url,
      method := method, library := "fetch", environment := "client" }
  let base :=
    match init.bind (·.headers) with
    | some h => if cfg.includeHeaders then { base with headers := some h } else base
    | none => base
  match init.bind (·.body) with
  | some b =>
    if cfg.includeBody && b ≠ "" then
      { base with
        body := some (match jsonParse b with
          | some j => BodyVal.parsed j
          | none => BodyVal.raw b) }
    else base
  | none => base

/-- The `request_success` event built in the interceptor's try block
(src/index.ts lines 293-304). -/
def mkSuccessEvent (rid ts url method : String) (response : Response)
    (duration : Int) : RequestEvent :=
  { event := .success, requestId := rid, timestamp := ts, url := url,
    method := method, library := "fetch", environment := "client",
    status := some response.status,
    statusText := some response.statusText,
    duration := some duration }

/-- The `request_error` event built in the interceptor's catch block
(src/index.ts lines 310-321). -/
def mkErrorEvent (rid ts url method : String) (e : JsError)
    (duration : Int) : RequestEvent :=
  { event := .err, requestId := rid, timestamp := ts, url := url,
    method := method, library := "fetch", environment := "client",
    error := some e.message, duration := some duration, stack := e.stack }

/-- The result of one call through the wrapped `window.fetch`: the outcome
the caller observes, the emissions performed (in temporal order), and the
events the interceptor constructed (in construction order). -/
structure WrapResult where
  outcome : Except JsError Response
  emissions : List Emission
  constructed : List RequestEvent
deriving Repr

/-- The wrapped `window.fetch` installed by `setupFetchInterceptor`
(src/index.ts lines 255-327).  `ts1 ts2 ts3` are the ISO timestamps taken at
the three event constructions, `t0` the `performance.now()` sample before
the call, `t1` the sample in the try block, `t2` the sample in the catch
block; `netS netT netE` are the transmission outcomes for the start,
terminal-in-try and catch dispatches; `fetchOutcome` is what the original
fetch would do. -/
def wrappedFetch (env : JsEnv) (cfg : LoggerConfig)
    (rid ts1 ts2 ts3 : String) (t0 t1 t2 : ℚ)
    (input : FetchInput) (init : Option RequestInit)
    (jsonParse : String → Option String)
    (netS netT netE : Except JsError Unit)
    (fetchOutcome : Except JsError Response) : WrapResult :=
  let url := urlOf input
  let method := methodOf init
  let startEvent := mkStartEvent cfg rid ts1 url method init jsonParse
  match logEvent env cfg netS startEvent with
  | (_, .error e) => ⟨.error e, [], [startEvent]⟩
  | (_, .ok em1) =>
    match fetchOutcome with
    | .ok response =>
      let successEvent := mkSuccessEvent rid ts2 url method response (jsRound (t1 - t0))
      match logEvent env cfg netT successEvent with
      | (_, .ok em2) => ⟨.ok response, em1 ++ em2, [startEvent, successEvent]⟩
      | (_, .error e) =>
        let errorEvent := mkErrorEvent rid ts3 url method e (jsRound (t2 - t0))
        match logEvent env cfg netE errorEvent with
        | (_, .ok em3) =>
          ⟨.error e, em1 ++ em3, [startEvent, successEvent, errorEvent]⟩
        | (_, .error e2) =>
          ⟨.error e2, em1, [startEvent, successEvent, errorEvent]⟩
    | .error ferr =>
      let errorEvent := mkErrorEvent rid ts3 url method ferr (jsRound (t2 - t0))
      match logEvent env cfg netE errorEvent with
      | (_, .ok em3) => ⟨.error ferr, em1 ++ em3, [startEvent, errorEvent]⟩
      | (_, .error e2) => ⟨.error e2, em1, [startEvent, errorEvent]⟩

/-- A configuration whose user hooks never throw. -/
def HookSafe (cfg : LoggerConfig) : Prop :=
  (∀ p, cfg.contextProvider = some p → ∃ c, p () = Except.ok c) ∧
  (∀ tf ev, cfg.transformLog = some tf → ∃ r, tf ev = Except.ok r)

/-! ### Child loggers (Context Gate, src/index.ts lines 416-453) -/

/-- `LoggerContext` (src/index.ts lines 496-501). -/
structure LoggerContext where
  module : String
  component : Option String := none
  filePath : Option String := none
  environment : Option String := none
deriving DecidableEq, Repr

/-- Remove the first occurrence of `pat` from `s` (JS
`s.replace(pat, "")` for a plain-string pattern), as lists of characters. -/
def removeFirst (pat : List Char) : List Char → List Char
  | [] => []
  | c :: t =>
    if pat.isPrefixOf (c :: t) then (c :: t).drop pat.length
    else c :: removeFirst pat t

/-- `filePath.replace(process.cwd() + "/", "")` (src/index.ts line 429). -/
def stripCwd (cwd fp : String) : String :=
  ⟨removeFirst (cwd ++ "/").data fp.data⟩

/-- `shouldLogModule` (src/index.ts lines 439-442). -/
def shouldLogModule (env : JsEnv) (m : String) : Bool :=
  match env.logModule with
  | none => true
  | some s => ((s.splitOn ",").map (·.trim)).contains m

/-- The `LoggerContext` spread as object fields (in declaration order). -/
def ctxFields (c : LoggerContext) : Ctx :=
  [("module", c.module)] ++
    (match c.component with | some x => [("component", x)] | none => []) ++
    (match c.filePath with | some x => [("filePath", x)] | none => []) ++
    (match c.environment with | some x => [("environment", x)] | none => [])

/-- The `base` object built by `createChildLogger` (src/index.ts
lines 426-434): the context fields, `filePath` rewritten with the cwd
prefix stripped, and an `environment` override attached only outside
development. -/
def baseOf (env : JsEnv) (c : LoggerContext) : Ctx :=
  mergeCtx
    (mergeCtx (ctxFields c)
      (match c.filePath with
       | some fp => [("filePath", stripCwd env.cwd fp)]
       | none => []))
    (if !isDev env then [("environment", jsOrS (env.nodeEnv.getD "") "production")]
     else [])

/-- An emitter as the module exposes it: the module-level pino logger, a
`child` of it carrying base fields, or the silent no-op logger
(src/index.ts lines 444-453). -/
inductive Emitter where
  | top
  | real (base : Ctx)
  | silent
deriving DecidableEq, Repr

/-- The `child` operation: pino children accumulate base fields; the silent
logger's `child` yields a silent logger again. -/
def Emitter.child : Emitter → Ctx → Emitter
  | .top, c => .real c
  | .real b, c => .real (mergeCtx b c)
  | .silent, _ => .silent

/-- One record produced by a level method call. -/
structure LogRecord where
  level : Level
  base : Ctx
  data : Ctx
deriving DecidableEq, Repr

/-- What a level method visibly produces: nothing for the silent logger,
one record otherwise. -/
def Emitter.emit : Emitter → Level → Ctx → List LogRecord
  | .silent, _, _ => []
  | .top, lv, d => [⟨lv, [], d⟩]
  | .real b, lv, d => [⟨lv, b, d⟩]

/-- Iterated child-scoping. -/
def Emitter.descend (e : Emitter) (cs : List Ctx) : Emitter :=
  cs.foldl Emitter.child e

/-- The emitter and all emitters obtained from it by further child-scoping
produce no record at any level. -/
def SilentDeep (e : Emitter) : Prop :=
  ∀ cs lv d, (e.descend cs).emit lv d = []

/-- `createChildLogger` (src/index.ts lines 416-437). -/
def createChildLogger (env : JsEnv) (context : LoggerContext) : Emitter :=
  if isClient env then Emitter.top
  else if isDev env && !shouldLogModule env context.module then Emitter.silent
  else Emitter.top.child (baseOf env context)

/-! ### Timing utilities (src/index.ts lines 455-493) -/

/-- `+(x).toFixed(2)`: round to two decimal places. -/
def round2 (q : ℚ) : ℚ := (round (100 * q) : ℤ) / 100

/-- One call made on the emitter passed to `measureDuration` /
`measureDurationQuiet`: the level, the data object and the message. -/
structure MeasureRec where
  level : Level
  durationMs : ℚ
  label : String
  err : Option JsError
  msg : String
deriving DecidableEq, Repr

/-- `measureDuration` (src/index.ts lines 455-475): `fn`'s settled outcome
is `fn`; `t0` and `t1` are the `performance.now()` samples before and after.
Returns the outcome the caller observes and the calls made on `log`. -/
def measureDuration {α : Type} (label : String) (fn : Except JsError α)
    (t0 t1 : ℚ) : Except JsError α × List MeasureRec :=
  match fn with
  | .ok a =>
    (.ok a, [⟨Level.info, round2 (t1 - t0), label, none, label ++ " completed"⟩])
  | .error e =>
    (.error e, [⟨Level.error, round2 (t1 - t0), label, some e, label ++ " failed"⟩])

/-- `measureDurationQuiet` (src/index.ts lines 477-493). -/
def measureDurationQuiet {α : Type} (label : String) (fn : Except JsError α)
    (t0 t1 : ℚ) : Except JsError (α × ℚ) × List MeasureRec :=
  match fn with
  | .ok a =>
    let d := round2 (t1 - t0)
    (.ok (a, d), [⟨Level.debug, d, label, none, label ++ " completed"⟩])
  | .error e =>
    let d := round2 (t1 - t0)
    (.error e, [⟨Level.error, d, label, some e, label ++ " failed"⟩])

/-! ### Module lifecycle (for the environment-caching question)

The source computes `isClient` / `isServer` once, at module evaluation
(src/index.ts lines 13-14).  A `Process` carries both the environment seen
at module load and the environment current at some later call; the `...At`
operations are the module's functions, which close over the load-time
constants. -/

structure Process where
  loadEnv : JsEnv
  callEnv : JsEnv
deriving DecidableEq, Repr

/-- `logEvent` as the module actually executes it: the environment branch
uses the constants captured at module load. -/
def logEventAt (p : Process) (cfg : LoggerConfig)
    (net : Except JsError Unit) (ev : RequestEvent) :
    RequestEvent × Except JsError (List Emission) :=
  logEvent p.loadEnv cfg net ev

/-- Modelled from the spec: the spec's per-call environment classifier
("queried fresh on every call, never cached") would make `logEvent` branch
on the environment current at the call. -/
def logEventPerCallSpec (p : Process) (cfg : LoggerConfig)
    (net : Except JsError Unit) (ev : RequestEvent) :
    RequestEvent × Except JsError (List Emission) :=
  logEvent p.callEnv cfg net ev

/-- `createChildLogger` as the module actually executes it (load-time
environment constants). -/
def createChildLoggerAt (p : Process) (context : LoggerContext) : Emitter :=
  createChildLogger p.loadEnv context

/-! ### Concrete fixtures used in witnesses and counterexamples -/

/-- A production browser environment. -/
def envClient : JsEnv := ⟨true, none, none, "/app"⟩

/-- A development browser environment. -/
def envClientDev : JsEnv := ⟨true, some "development", none, "/app"⟩

/-- A production server environment. -/
def envServer : JsEnv := ⟨false, none, none, "/app"⟩

/-- A development server environment with `LOG_MODULE="a,b"`. -/
def envServerDevAB : JsEnv := ⟨false, some "development", some "a,b", "/app"⟩

/-- A logger context for module `"c"`. -/
def ctxC : LoggerContext := ⟨"c", none, none, none⟩

/-- A process whose module was evaluated server-side but where the browser
global exists at call time (universal rendering, then hydration). -/
def procMix : Process := ⟨envServer, envClient⟩

/-- A process that is server-side both at load and at call time. -/
def procServer : Process := ⟨envServer, envServer⟩

/-- A 200 response. -/
def resp0 : Response := ⟨200, "OK"⟩

/-- A successful transmission. -/
def netOk : Except JsError Unit := .ok ()

/-- A failed transmission. -/
def netFail : Except JsError Unit := .error ⟨"netdown", none⟩

/-- A plain start event on a non-excluded url. -/
def ev0 : RequestEvent :=
  { event := .start, requestId := "r0", timestamp := "T0", url := "/u",
    method := "GET", library := "fetch", environment := "client" }

/-- A configuration whose `contextProvider` throws. -/
def cfgBoom : LoggerConfig :=
  { defaultConfig with contextProvider := some (fun _ => .error ⟨"boom", none⟩) }

/-- A configuration whose `transformLog` throws on `request_success` events
only. -/
def cfgTBoom : LoggerConfig :=
  { defaultConfig with transformLog := some (fun e =>
      if e.event = EventKind.success then .error ⟨"tboom", none⟩ else .ok e) }

/-- A context provider returning one field. -/
def provFn : Unit → Except JsError Ctx := fun _ => .ok [("user", "u1")]

/-- A configuration with `provFn` as its `contextProvider`. -/
def cfgProv : LoggerConfig := { defaultConfig with contextProvider := some provFn }

/-- The event kind an emission carries, when it carries one. -/
def emissionKind : Emission → Option EventKind
  | .serverLog _ ev => some ev.event
  | .consoleLog ev => some ev.event
  | .post _ ev => some ev.event
  | .onErrorCall _ => none
  | .consoleWarnFail _ => none

end NextAutoLogger

namespace NextAutoLogger.Api

open NextAutoLogger

/-! ### Ingestion endpoint (src/api.ts) -/

/-- The JSON envelope the endpoint receives.  A missing or empty string
field is modelled as `""` (both are falsy for the `!logData.x` checks);
`environment` and any further fields ride along in `environment` / `rest`. -/
structure Envelope where
  event : String
  requestId : String
  url : String
  environment : Option String := none
  rest : Ctx := []
deriving DecidableEq, Repr

/-- A Pages Router request (`NextApiRequest`) as the handler reads it.
`body := none` models a body whose field access throws (no parsed body). -/
structure ApiRequest where
  method : String
  origin : Option String := none
  xForwardedFor : Option String := none
  xRealIp : Option String := none
  remoteAddress : Option String := none
  userAgent : Option String := none
  referer : Option String := none
  body : Option Envelope := none
deriving Repr

/-- An App Router request (`NextRequest`): same headers, no connection
address; `body := none` models `req.json()` throwing. -/
structure AppRequest where
  origin : Option String := none
  xForwardedFor : Option String := none
  xRealIp : Option String := none
  userAgent : Option String := none
  referer : Option String := none
  body : Option Envelope := none
deriving Repr

/-- `getClientIP` for `NextApiRequest` (src/api.ts lines 48-56): JS falsy
chaining over the header values, the connection address and the loopback
fallback. -/
def getClientIP (r : ApiRequest) : String :=
  jsOrS
    (match r.xForwardedFor with
     | some s => (s.splitOn ",").headD ""
     | none => "")
    (jsOrS (r.xRealIp.getD "")
      (jsOrS (r.remoteAddress.getD "") "127.0.0.1"))

/-- `getClientIP` for `NextRequest` (src/api.ts lines 57-64). -/
def getClientIPApp (r : AppRequest) : String :=
  jsOrS
    (match r.xForwardedFor with
     | some s => (s.splitOn ",").headD ""
     | none => "")
    (jsOrS (r.xRealIp.getD "") "127.0.0.1")

/-- The CORS headers both handlers attach (src/api.ts lines 67-71 and
147-156). -/
def corsHeaders (origin : Option String) : Ctx :=
  [("Access-Control-Allow-Origin", jsOrS (origin.getD "") "*"),
   ("Access-Control-Allow-Methods", "POST, OPTIONS"),
   ("Access-Control-Allow-Headers", "Content-Type, Authorization")]

/-- One entry of `rateLimitStore` (src/api.ts line 74). -/
structure RateRec where
  count : Nat
  resetTime : Nat
deriving DecidableEq, Repr

/-- The in-memory rate-limit map, keyed by client IP. -/
abbrev Store := List (String × RateRec)

/-- `rateLimitStore.get(ip)`. -/
def storeGet (s : Store) (ip : String) : Option RateRec :=
  match s with
  | [] => none
  | (k, v) :: t => if k = ip then some v else storeGet t ip

/-- `rateLimitStore.set(ip, r)` (and the in-place `record.count++`). -/
def storeSet (s : Store) (ip : String) (r : RateRec) : Store :=
  match s with
  | [] => [(ip, r)]
  | (k, v) :: t => if k = ip then (k, r) :: t else (k, v) :: storeSet t ip r

/-- The 60-second window (src/api.ts line 78). -/
def windowMs : Nat := 60000

/-- `checkRateLimit` (src/api.ts lines 76-89). -/
def checkRateLimit (now : Nat) (ip : String) (limit : Nat) (s : Store) :
    Bool × Store :=
  match storeGet s ip with
  | none => (true, storeSet s ip ⟨1, now + windowMs⟩)
  | some r =>
    if now > r.resetTime then (true, storeSet s ip ⟨1, now + windowMs⟩)
    else if r.count ≥ limit then (false, s)
    else (true, storeSet s ip ⟨r.count + 1, r.resetTime⟩)

/-- Iterate `checkRateLimit` over a list of request times, all from one IP. -/
def runSeq (ip : String) (limit : Nat) : List Nat → Store → List Bool × Store
  | [], s => ([], s)
  | t :: ts, s =>
    let r := checkRateLimit t ip limit s
    let rec2 := runSeq ip limit ts r.2
    (r.1 :: rec2.1, rec2.2)

/-- The enriched record the handler logs (src/api.ts lines 120-128): the
received envelope spread first, then the server-side fields, `environment`
forced last. -/
structure EnrichedLog where
  base : Envelope
  serverTimestamp : String
  clientIP : String
  userAgent : Option String
  referer : Option String
  environment : String
deriving DecidableEq, Repr

/-- The envelope's own fields as a flat object. -/
def envelopeFields (b : Envelope) : Ctx :=
  [("event", b.event), ("requestId", b.requestId), ("url", b.url)] ++
    (match b.environment with | some x => [("environment", x)] | none => []) ++
    b.rest

/-- The enriched record flattened the way the JS object spread produces it:
envelope fields first, server fields after, so the forced
`environment: "client"` wins any collision. -/
def EnrichedLog.toFields (e : EnrichedLog) : Ctx :=
  mergeCtx (envelopeFields e.base)
    ([("serverTimestamp", e.serverTimestamp), ("clientIP", e.clientIP)] ++
      (match e.userAgent with | some x => [("userAgent", x)] | none => []) ++
      (match e.referer with | some x => [("referer", x)] | none => []) ++
      [("environment", e.environment)])

/-- A record the endpoint emits server-side: an enriched envelope at some
severity, or the catch-block failure record. -/
inductive ApiLog where
  | envelope (level : Level) (rec : EnrichedLog)
  | failure (msg : String)
deriving DecidableEq, Repr

/-- A response body the endpoint produces. -/
inductive RespBody where
  | empty
  | successTrue
  | errMsg (s : String)
deriving DecidableEq, Repr

/-- The outcome of one handler invocation. -/
structure HandlerResult where
  status : Nat
  body : RespBody
  headers : Ctx
  logs : List ApiLog
  store : Store
deriving Repr

/-- The shared post-rate-limit processing (src/api.ts lines 111-134 and
170-205): validate, enrich, route severity. -/
def processEnvelope (ip serverTs : String) (userAgent referer : Option String)
    (body : Option Envelope) (cors : Ctx) (store : Store) : HandlerResult :=
  match body with
  | none =>
    ⟨500, .errMsg "Internal server error", cors,
      [.failure "Failed to process client log"], store⟩
  | some b =>
    if b.event = "" || b.requestId = "" || b.url = "" then
      ⟨400, .errMsg "Invalid log data structure", cors, [], store⟩
    else
      let enriched : EnrichedLog := ⟨b, serverTs, ip, userAgent, referer, "client"⟩
      let level := if b.event = "request_error" then Level.error else Level.info
      ⟨200, .successTrue, cors, [.envelope level enriched], store⟩

/-- The Pages Router `handler` (src/api.ts lines 92-143): CORS, OPTIONS,
method check, per-IP rate limiting with the default limit 100, then
validation / enrichment / logging. -/
def handler (now : Nat) (serverTs : String) (store : Store)
    (req : ApiRequest) : HandlerResult :=
  let cors := corsHeaders req.origin
  if req.method = "OPTIONS" then ⟨200, .empty, cors, [], store⟩
  else if req.method ≠ "POST" then
    ⟨405, .errMsg "Method not allowed", cors, [], store⟩
  else
    let clientIP := getClientIP req
    let rl := checkRateLimit now clientIP 100 store
    if !rl.1 then ⟨429, .errMsg "Rate limit exceeded", cors, [], rl.2⟩
    else processEnvelope clientIP serverTs req.userAgent req.referer req.body cors rl.2

/-- The App Router `POST` handler (src/api.ts lines 146-221). -/
def POST (now : Nat) (serverTs : String) (store : Store)
    (req : AppRequest) : HandlerResult :=
  let cors := corsHeaders req.origin
  let clientIP := getClientIPApp req
  let rl := checkRateLimit now clientIP 100 store
  if !rl.1 then ⟨429, .errMsg "Rate limit exceeded", cors, [], rl.2⟩
  else processEnvelope clientIP serverTs req.userAgent req.referer req.body cors rl.2

/-! ### Concrete fixtures used in witnesses -/

/-- A valid success envelope that also tries to claim `environment:
"server"`. -/
def bOk : Envelope where
  event := "request_success"
  requestId := "req_1"
  url := "/x"
  environment := some "server"

/-- A valid post of a success envelope. -/
def apiReqOk : ApiRequest where
  method := "POST"
  xRealIp := some "9.9.9.9"
  userAgent := some "UA"
  body := some bOk

/-- A post whose envelope is missing `requestId`. -/
def apiReqBad : ApiRequest where
  method := "POST"
  xRealIp := some "9.9.9.9"
  body := some { event := "request_error", requestId := "", url := "/x" }

/-- The same malformed post through the App Router. -/
def appReqBad : AppRequest where
  xRealIp := some "9.9.9.9"
  body := some { event := "request_error", requestId := "", url := "/x" }

end NextAutoLogger.Api

namespace NextAutoLogger

/-! ## Helper lemmas -/

/-- Lookup distributes over append, preferring the left list. -/
theorem ctxLookup_append (k : String) (l1 l2 : Ctx) :
    ctxLookup k (l1 ++ l2)
      = match ctxLookup k l1 with
        | some v => some v
        | none => ctxLookup k l2 := by
  induction l1 with
  | nil => simp [ctxLookup]
  | cons hd t ih =>
    obtain ⟨k2, v⟩ := hd
    by_cases hk : k2 = k <;> simp [ctxLookup, hk, ih]

/-- Filtering away every entry with key `k` makes its lookup fail. -/
theorem ctxLookup_filter_none (k : String) (p : String × String → Bool) (a : Ctx)
    (h : ∀ v, p (k, v) = false) : ctxLookup k (a.filter p) = none := by
  induction a with
  | nil => simp [ctxLookup]
  | cons hd t ih =>
    obtain ⟨k2, v⟩ := hd
    by_cases hk : k2 = k
    · subst hk
      simp [List.filter_cons, h v, ih]
    · by_cases hp : p (k2, v) <;> simp [List.filter_cons, hp, ctxLookup, hk, ih]

/-- A filter that keeps every entry with key `k` preserves its lookup. -/
theorem ctxLookup_filter_keep (k : String) (p : String × String → Bool) (a : Ctx)
    (h : ∀ v, p (k, v) = true) : ctxLookup k (a.filter p) = ctxLookup k a := by
  induction a with
  | nil => simp
  | cons hd t ih =>
    obtain ⟨k2, v⟩ := hd
    by_cases hk : k2 = k
    · subst hk
      simp [List.filter_cons, h v, ctxLookup, ih]
    · by_cases hp : p (k2, v) <;> simp [List.filter_cons, hp, ctxLookup, hk, ih]

/-- In `{...a, ...b}` a key present in `b` resolves to `b`'s value. -/
theorem ctxLookup_mergeCtx_right (k : String) (a b : Ctx) (v : String)
    (h : ctxLookup k b = some v) : ctxLookup k (mergeCtx a b) = some v := by
  unfold mergeCtx
  rw [ctxLookup_append,
    ctxLookup_filter_none k _ a (fun w => by simp [h])]
  exact h

/-- In `{...a, ...b}` a key absent from `b` resolves as in `a`. -/
theorem ctxLookup_mergeCtx_left (k : String) (a b : Ctx)
    (h : ctxLookup k b = none) : ctxLookup k (mergeCtx a b) = ctxLookup k a := by
  unfold mergeCtx
  rw [ctxLookup_append, ctxLookup_filter_keep k _ a (fun w => by simp [h])]
  cases hx : ctxLookup k a <;> simp [h, hx]

/-- When the configured transformer cannot throw, the transform-and-dispatch
tail of `logEvent` cannot throw. -/
theorem applyTransform_ok (env : JsEnv) (cfg : LoggerConfig)
    (net : Except JsError Unit) (ev : RequestEvent)
    (h : ∀ tf e, cfg.transformLog = some tf → ∃ r, tf e = Except.ok r) :
    ∃ ems, applyTransform env cfg net ev = .ok ems := by
  unfold applyTransform
  cases htf : cfg.transformLog with
  | none => exact ⟨_, rfl⟩
  | some tf =>
    obtain ⟨r, hr⟩ := h tf ev htf
    simp only [hr]
    exact ⟨_, rfl⟩

/-- With hooks that never throw, `logEvent` never throws. -/
theorem logEvent_ok {cfg : LoggerConfig} (h : HookSafe cfg) (env : JsEnv)
    (net : Except JsError Unit) (ev : RequestEvent) :
    ∃ ev2 ems, logEvent env cfg net ev = (ev2, Except.ok ems) := by
  unfold logEvent
  by_cases hs : shouldLog cfg ev.url
  · rw [if_neg (by simp [hs])]
    cases hp : cfg.contextProvider with
    | none =>
      obtain ⟨ems, hems⟩ := applyTransform_ok env cfg net ev h.2
      exact ⟨ev, ems, by rw [hems]⟩
    | some p =>
      obtain ⟨c, hc⟩ := h.1 p hp
      obtain ⟨ems, hems⟩ := applyTransform_ok env cfg net
        { ev with context := some (mergeCtx (ev.context.getD []) c) } h.2
      exact ⟨{ ev with context := some (mergeCtx (ev.context.getD []) c) }, ems,
        by simp only [hc, hems]⟩
  · rw [if_pos (by simpa using hs)]
    exact ⟨ev, [], rfl⟩

/-- The default configuration has no hooks, so none can throw. -/
theorem hookSafe_defaultConfig : HookSafe defaultConfig :=
  ⟨fun _ hp => Option.noConfusion hp, fun _ _ htf => Option.noConfusion htf⟩

/-- Child-scoping never leaves the silent logger. -/
theorem emitter_descend_silent (cs : List Ctx) :
    Emitter.silent.descend cs = Emitter.silent := by
  induction cs with
  | nil => rfl
  | cons c t ih => simpa [Emitter.descend, Emitter.child] using ih

/-- The silent logger is silent, as are all its descendants. -/
theorem silentDeep_silent : SilentDeep Emitter.silent := by
  intro cs lv d
  rw [emitter_descend_silent]
  rfl

/-- A pino child emitter produces a record, so it is not silent. -/
theorem not_silentDeep_real (b : Ctx) : ¬ SilentDeep (Emitter.real b) := by
  intro h
  have h0 := h [] Level.info []
  simp [Emitter.descend, Emitter.emit] at h0

/-- The allow-list filter rejects exactly when `LOG_MODULE` is present and
its trimmed entries do not contain the module. -/
theorem shouldLogModule_eq_false_iff (env : JsEnv) (m : String) :
    shouldLogModule env m = false ↔
      ∃ s, env.logModule = some s ∧
        ((s.splitOn ",").map (·.trim)).contains m = false := by
  unfold shouldLogModule
  cases h : env.logModule with
  | none => simp
  | some s => simp

/-- Two-decimal rounding preserves non-negativity. -/
theorem round2_nonneg {q : ℚ} (h : 0 ≤ q) : 0 ≤ round2 q := by
  unfold round2
  have h2 : (0 : ℤ) ≤ round (100 * q) := by
    rw [round_eq]
    exact Int.floor_nonneg.mpr (by linarith)
  have h3 : (0 : ℚ) ≤ ((round (100 * q) : ℤ) : ℚ) := by exact_mod_cast h2
  positivity

end NextAutoLogger

namespace NextAutoLogger.Api

open NextAutoLogger

/-- Setting a key makes it retrievable. -/
theorem storeGet_storeSet_self (s : Store) (ip : String) (r : RateRec) :
    storeGet (storeSet s ip r) ip = some r := by
  induction s with
  | nil => simp [storeSet, storeGet]
  | cons hd t ih =>
    obtain ⟨k, v⟩ := hd
    by_cases hk : k = ip <;> simp [storeSet, storeGet, hk, ih]

/-- Setting one IP's record leaves every other IP's record unchanged. -/
theorem storeGet_storeSet_other (s : Store) (ip ip2 : String) (r : RateRec)
    (h : ip ≠ ip2) : storeGet (storeSet s ip r) ip2 = storeGet s ip2 := by
  induction s with
  | nil => simp [storeSet, storeGet, h]
  | cons hd t ih =>
    obtain ⟨k, v⟩ := hd
    by_cases hk : k = ip <;> by_cases hk2 : k = ip2 <;>
      simp_all [storeSet, storeGet]

/-- A denied request does not change the store. -/
theorem checkRateLimit_denied (now : Nat) (ip : String) (limit : Nat)
    (s : Store) (h : (checkRateLimit now ip limit s).1 = false) :
    (checkRateLimit now ip limit s).2 = s := by
  unfold checkRateLimit at h ⊢
  cases hg : storeGet s ip with
  | none => simp [hg] at h
  | some r =>
    by_cases h1 : now > r.resetTime
    · simp [hg, h1] at h
    · by_cases h2 : r.count ≥ limit
      · simp [hg, h1, h2]
      · simp [hg, h1, h2] at h

/-- While a live window for `ip` holds count `c`, the remaining
`limit + 1 - c` in-window requests are admitted until the count saturates
at `limit` and the final one is denied. -/
theorem runSeq_saturate (ip : String) (limit R : Nat) (ts : List Nat) :
    ∀ (s : Store) (c : Nat),
      storeGet s ip = some ⟨c, R⟩ → 1 ≤ c → c ≤ limit →
      c + ts.length = limit + 1 →
      (∀ t ∈ ts, t ≤ R) →
      (runSeq ip limit ts s).1 = List.replicate (limit - c) true ++ [false] := by
  induction ts with
  | nil =>
    intro s c hg h1 h2 hlen hin
    simp at hlen
    omega
  | cons t ts ih =>
    intro s c hg h1 h2 hlen hin
    have ht : t ≤ R := hin t (by simp)
    have hnm : ¬ (t > R) := by omega
    simp only [List.length_cons] at hlen
    by_cases hc : c < limit
    · have hcl : ¬ (c ≥ limit) := by omega
      have step : checkRateLimit t ip limit s = (true, storeSet s ip ⟨c + 1, R⟩) := by
        simp [checkRateLimit, hg, hnm, hcl]
      have hrest := ih (storeSet s ip ⟨c + 1, R⟩) (c + 1)
        (storeGet_storeSet_self s ip ⟨c + 1, R⟩) (by omega) (by omega)
        (by omega) (fun t2 h2m => hin t2 (by simp [h2m]))
      have hrep : limit - c = (limit - (c + 1)) + 1 := by omega
      simp [runSeq, step, hrest, hrep, List.replicate_succ]
    · have hceq : c = limit := by omega
      have hts : ts = [] := by
        have hl0 : ts.length = 0 := by omega
        exact List.length_eq_zero.mp hl0
      have hcl2 : c ≥ limit := by omega
      have step : checkRateLimit t ip limit s = (false, s) := by
        simp [checkRateLimit, hg, hnm, hcl2]
      subst hts
      simp [runSeq, step, hceq]

end NextAutoLogger.Api

namespace NextAutoLogger

/-! ## Claim C1 -/

/-- Claim C1, counterexample: with a configured `contextProvider` that
throws, dispatching the start event rejects the wrapped fetch with the
provider's error, so the caller does not observe the underlying fetch's
successful outcome — the logging-path failure is not swallowed. -/
theorem c1_hook_throw_alters_outcome :
    (wrappedFetch envClient cfgBoom "r1" "T1" "T2" "T3" 0 5 6
        (FetchInput.str "https://a.example/x") none (fun _ => none)
        netOk netOk netOk (Except.ok resp0)).outcome
      = Except.error ⟨"boom", none⟩ ∧
    (Except.error ⟨"boom", none⟩ : Except JsError Response)
      ≠ Except.ok resp0 := by
  constructor
  · decide
  · decide

/-- Claim C1 (amended): provided the configured `contextProvider` and
`transformLog` hooks do not throw, the wrapped fetch's outcome is exactly
the underlying fetch's outcome — the identical response value on
resolution, the identical error value on rejection — for every transmission
outcome of the logging path (client-side transmission failures are always
swallowed and never alter the caller-observed outcome). -/
theorem c1_wrappedFetch_outcome_preserved
    (env : JsEnv) (cfg : LoggerConfig) (rid ts1 ts2 ts3 : String)
    (t0 t1 t2 : ℚ) (input : FetchInput) (init : Option RequestInit)
    (jsonParse : String → Option String) (netS netT netE : Except JsError Unit)
    (fo : Except JsError Response) (h : HookSafe cfg) :
    (wrappedFetch env cfg rid ts1 ts2 ts3 t0 t1 t2 input init jsonParse
        netS netT netE fo).outcome = fo := by
  obtain ⟨a1, m1, h1⟩ := logEvent_ok h env netS
    (mkStartEvent cfg rid ts1 (urlOf input) (methodOf init) init jsonParse)
  cases fo with
  | ok r =>
    obtain ⟨a2, m2, h2⟩ := logEvent_ok h env netT
      (mkSuccessEvent rid ts2 (urlOf input) (methodOf init) r (jsRound (t1 - t0)))
    simp [wrappedFetch, h1, h2]
  | error fe =>
    obtain ⟨a3, m3, h3⟩ := logEvent_ok h env netE
      (mkErrorEvent rid ts3 (urlOf input) (methodOf init) fe (jsRound (t2 - t0)))
    simp [wrappedFetch, h1, h3]

/-- Witness for the amended C1 at a concrete input: the default
configuration is hook-safe, and a wrapped call whose transmissions fail
still resolves with the underlying response. -/
theorem c1_wrappedFetch_outcome_preserved_witness :
    HookSafe defaultConfig ∧
    (wrappedFetch envClient defaultConfig "r1" "T1" "T2" "T3" 0 5 6
        (FetchInput.str "https://a.example/x") none (fun _ => none)
        netFail netFail netFail (Except.ok resp0)).outcome
      = Except.ok resp0 :=
  ⟨hookSafe_defaultConfig,
    c1_wrappedFetch_outcome_preserved envClient defaultConfig "r1" "T1" "T2" "T3"
      0 5 6 (FetchInput.str "https://a.example/x") none (fun _ => none)
      netFail netFail netFail (Except.ok resp0) hookSafe_defaultConfig⟩

/-! ## Claim C2 -/

/-- Claim C2, counterexample: in a process whose module was evaluated with
no browser global but where `window` exists at call time, `logEvent` still
takes the server branch (a direct pino emission), not the client branch the
per-call classifier demanded by the claim would take. -/
theorem c2_branch_uses_load_env :
    procMix.callEnv.hasWindow = true ∧
    (logEventAt procMix defaultConfig netOk ev0).2
      = Except.ok [Emission.serverLog Level.info ev0] ∧
    logEventAt procMix defaultConfig netOk ev0
      ≠ logEventPerCallSpec procMix defaultConfig netOk ev0 := by
  refine ⟨rfl, by decide, by decide⟩

/-- Claim C2 (amended): the client/server determination is computed once at
module initialization (`isClient`/`isServer` are module-scope constants)
and every operation uses that load-time answer: two processes with the same
load-time environment behave identically under every operation, whatever
the call-time environment is. -/
theorem c2_env_cached_at_load (p q : Process) (hload : p.loadEnv = q.loadEnv) :
    (∀ cfg net ev, logEventAt p cfg net ev = logEventAt q cfg net ev) ∧
    (∀ ctx, createChildLoggerAt p ctx = createChildLoggerAt q ctx) := by
  unfold logEventAt createChildLoggerAt
  rw [hload]
  exact ⟨fun _ _ _ => rfl, fun _ => rfl⟩

/-- Witness for the amended C2: a server-loaded process that stays
server-side and one whose call-time environment became a browser agree on
every operation. -/
theorem c2_env_cached_at_load_witness :
    procMix.loadEnv = procServer.loadEnv ∧
    ((∀ cfg net ev, logEventAt procMix cfg net ev = logEventAt procServer cfg net ev) ∧
     (∀ ctx, createChildLoggerAt procMix ctx = createChildLoggerAt procServer ctx)) :=
  ⟨rfl, c2_env_cached_at_load procMix procServer rfl⟩

/-! ## Claim C3 -/

/-- Claim C3: server-side, `createChildLogger` returns the deeply silent
no-op emitter exactly when the deployment is development, `LOG_MODULE` is
present, and the context's module is not among its trimmed comma-separated
entries; and in a non-development deployment, or in development with
`LOG_MODULE` unset, it returns the (non-silent) pino child built over the
merged base fields, for every module name. -/
theorem c3_createChildLogger_silent_iff (env : JsEnv) (ctx : LoggerContext)
    (hw : env.hasWindow = false) :
    (SilentDeep (createChildLogger env ctx) ↔
      (isDev env = true ∧ ∃ s, env.logModule = some s ∧
        ((s.splitOn ",").map (·.trim)).contains ctx.module = false)) ∧
    ((isDev env = false ∨ env.logModule = none) →
      createChildLogger env ctx = Emitter.real (baseOf env ctx) ∧
      ¬ SilentDeep (createChildLogger env ctx)) := by
  have hcl : isClient env = false := hw
  cases hd : isDev env with
  | false =>
    have hres : createChildLogger env ctx = Emitter.real (baseOf env ctx) := by
      simp [createChildLogger, hcl, hd, Emitter.child]
    refine ⟨?_, fun _ => ⟨hres, hres ▸ not_silentDeep_real _⟩⟩
    rw [hres]
    constructor
    · intro h
      exact absurd h (not_silentDeep_real _)
    · rintro ⟨h1, -⟩
      simp at h1
  | true =>
    cases hm : shouldLogModule env ctx.module with
    | false =>
      have hres : createChildLogger env ctx = Emitter.silent := by
        simp [createChildLogger, hcl, hd, hm]
      rw [hres]
      refine ⟨⟨fun _ => ⟨rfl, (shouldLogModule_eq_false_iff env ctx.module).mp hm⟩,
        fun _ => silentDeep_silent⟩, ?_⟩
      rintro (h1 | h2)
      · simp at h1
      · obtain ⟨s, hs, -⟩ := (shouldLogModule_eq_false_iff env ctx.module).mp hm
        rw [h2] at hs
        simp at hs
    | true =>
      have hres : createChildLogger env ctx = Emitter.real (baseOf env ctx) := by
        simp [createChildLogger, hcl, hd, hm, Emitter.child]
      refine ⟨?_, fun _ => ⟨hres, hres ▸ not_silentDeep_real _⟩⟩
      rw [hres]
      constructor
      · intro h
        exact absurd h (not_silentDeep_real _)
      · rintro ⟨-, s, hs, hcont⟩
        have hflt : shouldLogModule env ctx.module = false :=
          (shouldLogModule_eq_false_iff env ctx.module).mpr ⟨s, hs, hcont⟩
        rw [hm] at hflt
        simp at hflt

/-- Witness for C3: in development with `LOG_MODULE="a,b"`, the child
logger for module `"c"` is deeply silent, matching the filter condition. -/
theorem c3_createChildLogger_silent_iff_witness :
    envServerDevAB.hasWindow = false ∧
    ((SilentDeep (createChildLogger envServerDevAB ctxC) ↔
      (isDev envServerDevAB = true ∧ ∃ s, envServerDevAB.logModule = some s ∧
        ((s.splitOn ",").map (·.trim)).contains ctxC.module = false)) ∧
     ((isDev envServerDevAB = false ∨ envServerDevAB.logModule = none) →
      createChildLogger envServerDevAB ctxC = Emitter.real (baseOf envServerDevAB ctxC) ∧
      ¬ SilentDeep (createChildLogger envServerDevAB ctxC))) :=
  ⟨rfl, c3_createChildLogger_silent_iff envServerDevAB ctxC rfl⟩

/-! ## Claim C4 -/

/-- Claim C4: `measureDuration` observes `fn`'s outcome without altering
it — on success it returns the exact value and makes exactly one
`info`-level call carrying the label and a non-negative numeric
`durationMs`; on failure it makes exactly one `error`-level call carrying
the original error, the label and a numeric `durationMs`, and rejects with
the very same error value. `t0 ≤ t1` is the monotonicity of
`performance.now()`. -/
theorem c4_measureDuration_observes {α : Type} (label : String)
    (fn : Except JsError α) (t0 t1 : ℚ) (h : t0 ≤ t1) :
    (measureDuration label fn t0 t1).1 = fn ∧
    (∀ a : α, fn = Except.ok a →
      measureDuration label fn t0 t1 =
        (Except.ok a,
          [⟨Level.info, round2 (t1 - t0), label, none, label ++ " completed"⟩]) ∧
      0 ≤ round2 (t1 - t0)) ∧
    (∀ e : JsError, fn = Except.error e →
      measureDuration label fn t0 t1 =
        (Except.error e,
          [⟨Level.error, round2 (t1 - t0), label, some e, label ++ " failed"⟩])) := by
  have hd : 0 ≤ round2 (t1 - t0) := round2_nonneg (by linarith)
  refine ⟨?_, ?_, ?_⟩
  · cases fn <;> rfl
  · rintro a rfl
    exact ⟨rfl, hd⟩
  · rintro e rfl
    rfl

/-- Witness for C4 at a concrete successful operation. -/
theorem c4_measureDuration_observes_witness :
    (0 : ℚ) ≤ 3 ∧
    ((measureDuration "w" (Except.ok "result") 0 3).1 = Except.ok "result" ∧
     (∀ a : String, (Except.ok "result" : Except JsError String) = Except.ok a →
        measureDuration "w" (Except.ok "result") 0 3 =
          (Except.ok a,
            [⟨Level.info, round2 (3 - 0), "w", none, "w" ++ " completed"⟩]) ∧
        0 ≤ round2 (3 - 0)) ∧
     (∀ e : JsError, (Except.ok "result" : Except JsError String) = Except.error e →
        measureDuration "w" (Except.ok "result") 0 3 =
          (Except.error e,
            [⟨Level.error, round2 (3 - 0), "w", some e, "w" ++ " failed"⟩]))) :=
  ⟨by norm_num, c4_measureDuration_observes "w" (Except.ok "result") 0 3 (by norm_num)⟩

end NextAutoLogger

namespace NextAutoLogger.Api

open NextAutoLogger

/-! ## Claim C5 -/

/-- Claim C5: a POST carrying non-empty `event`, `requestId` and `url`
fields (and admitted by the rate limiter, which runs first) is answered
with HTTP 200 and `success: true`, and exactly one server-side record is
emitted: the received envelope enriched with `serverTimestamp`, `clientIP`,
`userAgent` and `referer`, with `environment` forced to `"client"`
(overriding any value in the envelope), at `error` severity exactly when
the envelope's event is `"request_error"` and at `info` severity
otherwise. -/
theorem c5_handler_valid_envelope (now : Nat) (serverTs : String)
    (store : Store) (req : ApiRequest) (b : Envelope)
    (hm : req.method = "POST")
    (hrl : (checkRateLimit now (getClientIP req) 100 store).1 = true)
    (hb : req.body = some b)
    (he : b.event ≠ "") (hr : b.requestId ≠ "") (hu : b.url ≠ "") :
    (handler now serverTs store req).status = 200 ∧
    (handler now serverTs store req).body = RespBody.successTrue ∧
    (handler now serverTs store req).logs =
      [ApiLog.envelope
        (if b.event = "request_error" then Level.error else Level.info)
        ⟨b, serverTs, getClientIP req, req.userAgent, req.referer, "client"⟩] ∧
    ctxLookup "environment"
      (EnrichedLog.toFields
        ⟨b, serverTs, getClientIP req, req.userAgent, req.referer, "client"⟩)
      = some "client" := by
  have hrun : handler now serverTs store req =
      ⟨200, RespBody.successTrue, corsHeaders req.origin,
        [ApiLog.envelope
          (if b.event = "request_error" then Level.error else Level.info)
          ⟨b, serverTs, getClientIP req, req.userAgent, req.referer, "client"⟩],
        (checkRateLimit now (getClientIP req) 100 store).2⟩ := by
    simp [handler, hm, hrl, processEnvelope, hb, he, hr, hu]
  refine ⟨by rw [hrun], by rw [hrun], by rw [hrun], ?_⟩
  unfold EnrichedLog.toFields
  apply ctxLookup_mergeCtx_right
  cases req.userAgent <;> cases req.referer <;> simp [ctxLookup]

/-- Witness for C5: a concrete valid envelope (which even claims
`environment: "server"`) round-trips to 200 with one enriched `info`
record whose flattened `environment` is `"client"`. -/
theorem c5_handler_valid_envelope_witness :
    (checkRateLimit 0 (getClientIP apiReqOk) 100 []).1 = true ∧
    ((handler 0 "TS" [] apiReqOk).status = 200 ∧
     (handler 0 "TS" [] apiReqOk).body = RespBody.successTrue ∧
     (handler 0 "TS" [] apiReqOk).logs =
       [ApiLog.envelope
         (if bOk.event = "request_error" then Level.error else Level.info)
         ⟨bOk, "TS", getClientIP apiReqOk, apiReqOk.userAgent,
           apiReqOk.referer, "client"⟩] ∧
     ctxLookup "environment"
       (EnrichedLog.toFields
         ⟨bOk, "TS", getClientIP apiReqOk, apiReqOk.userAgent,
           apiReqOk.referer, "client"⟩)
       = some "client") :=
  ⟨by decide,
    c5_handler_valid_envelope 0 "TS" [] apiReqOk bOk rfl (by decide) rfl
      (by decide) (by decide) (by decide)⟩

/-! ## Claim C6 -/

/-- Claim C6: a POST whose (admitted) body lacks a non-empty `event`,
`requestId` or `url` is answered with HTTP 400 and
`error: "Invalid log data structure"`, and no server-side record is
emitted — on both the Pages Router handler and the App Router POST
handler. -/
theorem c6_handler_invalid_envelope (now : Nat) (serverTs : String)
    (store store2 : Store) (req : ApiRequest) (req2 : AppRequest)
    (b b2 : Envelope)
    (hm : req.method = "POST")
    (hrl : (checkRateLimit now (getClientIP req) 100 store).1 = true)
    (hb : req.body = some b)
    (hbad : b.event = "" ∨ b.requestId = "" ∨ b.url = "")
    (hrl2 : (checkRateLimit now (getClientIPApp req2) 100 store2).1 = true)
    (hb2 : req2.body = some b2)
    (hbad2 : b2.event = "" ∨ b2.requestId = "" ∨ b2.url = "") :
    ((handler now serverTs store req).status = 400 ∧
     (handler now serverTs store req).body
       = RespBody.errMsg "Invalid log data structure" ∧
     (handler now serverTs store req).logs = []) ∧
    ((POST now serverTs store2 req2).status = 400 ∧
     (POST now serverTs store2 req2).body
       = RespBody.errMsg "Invalid log data structure" ∧
     (POST now serverTs store2 req2).logs = []) := by
  have hv : (b.event = "" || b.requestId = "" || b.url = "") = true := by
    rcases hbad with h | h | h <;> simp [h]
  have hv2 : (b2.event = "" || b2.requestId = "" || b2.url = "") = true := by
    rcases hbad2 with h | h | h <;> simp [h]
  constructor
  · have hrun : handler now serverTs store req =
        ⟨400, RespBody.errMsg "Invalid log data structure",
          corsHeaders req.origin, [],
          (checkRateLimit now (getClientIP req) 100 store).2⟩ := by
      simp [handler, hm, hrl, processEnvelope, hb, hv]
    exact ⟨by rw [hrun], by rw [hrun], by rw [hrun]⟩
  · have hrun2 : POST now serverTs store2 req2 =
        ⟨400, RespBody.errMsg "Invalid log data structure",
          corsHeaders req2.origin, [],
          (checkRateLimit now (getClientIPApp req2) 100 store2).2⟩ := by
      simp [POST, hrl2, processEnvelope, hb2, hv2]
    exact ⟨by rw [hrun2], by rw [hrun2], by rw [hrun2]⟩

/-- Witness for C6: a concrete envelope missing `requestId` gets 400 and no
record, through both handlers. -/
theorem c6_handler_invalid_envelope_witness :
    (checkRateLimit 0 (getClientIP apiReqBad) 100 []).1 = true ∧
    (((handler 0 "TS" [] apiReqBad).status = 400 ∧
      (handler 0 "TS" [] apiReqBad).body
        = RespBody.errMsg "Invalid log data structure" ∧
      (handler 0 "TS" [] apiReqBad).logs = []) ∧
     ((POST 0 "TS" [] appReqBad).status = 400 ∧
      (POST 0 "TS" [] appReqBad).body
        = RespBody.errMsg "Invalid log data structure" ∧
      (POST 0 "TS" [] appReqBad).logs = [])) :=
  ⟨by decide,
    c6_handler_invalid_envelope 0 "TS" [] [] apiReqBad appReqBad
      { event := "request_error", requestId := "", url := "/x" }
      { event := "request_error", requestId := "", url := "/x" }
      rfl (by decide) rfl (Or.inr (Or.inl rfl)) (by decide) rfl
      (Or.inr (Or.inl rfl))⟩

/-! ## Claim C7 -/

/-- Claim C7: for one client IP, a fresh (or expired) window starting at
its first request admits exactly the first `limit` in-window requests and
denies request `limit + 1`; a denied request is answered 429 with
`error: "Rate limit exceeded"` and produces no log record and no store
change; counting is keyed per IP, so a request from an IP without a live
record is admitted regardless of other IPs' counts, and setting one IP's
record does not touch another's.  The handlers call `checkRateLimit` with
the default limit 100; `1 ≤ limit` reflects that a first request is always
admitted. -/
theorem c7_rate_limit_window (limit : Nat) (hl : 1 ≤ limit) :
    (∀ (ip : String) (t0 : Nat) (ts : List Nat) (store : Store),
       (∀ r, storeGet store ip = some r → r.resetTime < t0) →
       ts.length = limit →
       (∀ t ∈ ts, t ≤ t0 + windowMs) →
       (runSeq ip limit (t0 :: ts) store).1
         = List.replicate limit true ++ [false]) ∧
    (∀ (s : Store) (ip2 : String) (t : Nat),
       storeGet s ip2 = none → (checkRateLimit t ip2 limit s).1 = true) ∧
    (∀ (s : Store) (ip ip2 : String) (r : RateRec), ip ≠ ip2 →
       storeGet (storeSet s ip r) ip2 = storeGet s ip2) ∧
    (∀ (now : Nat) (serverTs : String) (store : Store) (req : ApiRequest),
       req.method = "POST" →
       (checkRateLimit now (getClientIP req) 100 store).1 = false →
       handler now serverTs store req =
         ⟨429, RespBody.errMsg "Rate limit exceeded",
           corsHeaders req.origin, [], store⟩) := by
  refine ⟨?_, ?_, ?_, ?_⟩
  · intro ip t0 ts store hexp hlen hin
    have step1 : checkRateLimit t0 ip limit store
        = (true, storeSet store ip ⟨1, t0 + windowMs⟩) := by
      cases hg : storeGet store ip with
      | none => simp [checkRateLimit, hg]
      | some r =>
        have hlt := hexp r hg
        have hgt : t0 > r.resetTime := hlt
        simp [checkRateLimit, hg, hgt]
    have hrest := runSeq_saturate ip limit (t0 + windowMs) ts
      (storeSet store ip ⟨1, t0 + windowMs⟩) 1
      (storeGet_storeSet_self store ip ⟨1, t0 + windowMs⟩)
      le_rfl hl (by omega) hin
    have hrep : List.replicate limit true
        = true :: List.replicate (limit - 1) true := by
      cases limit with
      | zero => omega
      | succ n => simp [List.replicate_succ]
    simp [runSeq, step1, hrest, hrep]
  · intro s ip2 t hg
    simp [checkRateLimit, hg]
  · intro s ip ip2 r hne
    exact storeGet_storeSet_other s ip ip2 r hne
  · intro now serverTs store req hm hden
    have hst := checkRateLimit_denied now (getClientIP req) 100 store hden
    simp [handler, hm, hden, hst]

/-- Witness for C7 with the limit configured to 5: six in-window requests
from one IP are answered admit, admit, admit, admit, admit, deny. -/
theorem c7_rate_limit_window_witness :
    1 ≤ 5 ∧
    ((∀ (ip : String) (t0 : Nat) (ts : List Nat) (store : Store),
       (∀ r, storeGet store ip = some r → r.resetTime < t0) →
       ts.length = 5 →
       (∀ t ∈ ts, t ≤ t0 + windowMs) →
       (runSeq ip 5 (t0 :: ts) store).1
         = List.replicate 5 true ++ [false]) ∧
     (∀ (s : Store) (ip2 : String) (t : Nat),
       storeGet s ip2 = none → (checkRateLimit t ip2 5 s).1 = true) ∧
     (∀ (s : Store) (ip ip2 : String) (r : RateRec), ip ≠ ip2 →
       storeGet (storeSet s ip r) ip2 = storeGet s ip2) ∧
     (∀ (now : Nat) (serverTs : String) (store : Store) (req : ApiRequest),
       req.method = "POST" →
       (checkRateLimit now (getClientIP req) 100 store).1 = false →
       handler now serverTs store req =
         ⟨429, RespBody.errMsg "Rate limit exceeded",
           corsHeaders req.origin, [], store⟩)) :=
  ⟨by decide, c7_rate_limit_window 5 (by decide)⟩

end NextAutoLogger.Api

namespace NextAutoLogger

/-- The start event carries the generated id and the `request_start` tag,
whatever the header/body capture settings are. -/
theorem mkStartEvent_fields (cfg : LoggerConfig) (rid ts url method : String)
    (init : Option RequestInit) (jsonParse : String → Option String) :
    (mkStartEvent cfg rid ts url method init jsonParse).requestId = rid ∧
    (mkStartEvent cfg rid ts url method init jsonParse).event = EventKind.start := by
  refine ⟨?_, ?_⟩ <;>
    (unfold mkStartEvent
     cases hh : init.bind (fun i => i.headers) <;>
       cases hb : init.bind (fun i => i.body) <;>
       dsimp only <;> split_ifs <;> rfl)

/-! ## Claim C8 -/

/-- Claim C8, counterexample: with a `transformLog` that throws on
`request_success` events, a call whose underlying fetch resolves constructs
both terminal variants, and the terminal event actually dispatched is
`request_error` — not the `request_success` the claim requires for a
resolved fetch. -/
theorem c8_hook_throw_terminal_mismatch :
    (wrappedFetch envClient cfgTBoom "r1" "T1" "T2" "T3" 0 5 6
        (FetchInput.str "https://a.example/x") none (fun _ => none)
        netOk netOk netOk (Except.ok resp0)).constructed.map RequestEvent.event
      = [EventKind.start, EventKind.success, EventKind.err] ∧
    (wrappedFetch envClient cfgTBoom "r1" "T1" "T2" "T3" 0 5 6
        (FetchInput.str "https://a.example/x") none (fun _ => none)
        netOk netOk netOk (Except.ok resp0)).emissions.map emissionKind
      = [some EventKind.start, some EventKind.err] := by
  exact ⟨by decide, by decide⟩

/-- Claim C8 (amended): provided the configured hooks do not throw, one
requestId is threaded unchanged through both events of a call, the
interceptor constructs exactly the start event followed by exactly one
terminal event — `request_success` when the underlying fetch resolves,
`request_error` when it rejects — and the start event comes first. -/
theorem c8_request_lifecycle
    (env : JsEnv) (cfg : LoggerConfig) (rid ts1 ts2 ts3 : String)
    (t0 t1 t2 : ℚ) (input : FetchInput) (init : Option RequestInit)
    (jsonParse : String → Option String) (netS netT netE : Except JsError Unit)
    (fo : Except JsError Response) (h : HookSafe cfg) :
    (wrappedFetch env cfg rid ts1 ts2 ts3 t0 t1 t2 input init jsonParse
        netS netT netE fo).constructed =
      [mkStartEvent cfg rid ts1 (urlOf input) (methodOf init) init jsonParse] ++
      [match fo with
       | Except.ok r =>
         mkSuccessEvent rid ts2 (urlOf input) (methodOf init) r (jsRound (t1 - t0))
       | Except.error e =>
         mkErrorEvent rid ts3 (urlOf input) (methodOf init) e (jsRound (t2 - t0))] ∧
    (∀ ev ∈ (wrappedFetch env cfg rid ts1 ts2 ts3 t0 t1 t2 input init jsonParse
        netS netT netE fo).constructed, ev.requestId = rid) ∧
    (wrappedFetch env cfg rid ts1 ts2 ts3 t0 t1 t2 input init jsonParse
        netS netT netE fo).constructed.map RequestEvent.event =
      [EventKind.start,
       match fo with
       | Except.ok _ => EventKind.success
       | Except.error _ => EventKind.err] := by
  obtain ⟨a1, m1, h1⟩ := logEvent_ok h env netS
    (mkStartEvent cfg rid ts1 (urlOf input) (methodOf init) init jsonParse)
  have hsf := mkStartEvent_fields cfg rid ts1 (urlOf input) (methodOf init)
    init jsonParse
  cases fo with
  | ok r =>
    obtain ⟨a2, m2, h2⟩ := logEvent_ok h env netT
      (mkSuccessEvent rid ts2 (urlOf input) (methodOf init) r (jsRound (t1 - t0)))
    have hc : (wrappedFetch env cfg rid ts1 ts2 ts3 t0 t1 t2 input init jsonParse
        netS netT netE (Except.ok r)).constructed =
        [mkStartEvent cfg rid ts1 (urlOf input) (methodOf init) init jsonParse,
         mkSuccessEvent rid ts2 (urlOf input) (methodOf init) r
           (jsRound (t1 - t0))] := by
      simp [wrappedFetch, h1, h2]
    refine ⟨by rw [hc]; rfl, ?_, ?_⟩
    · intro ev hev
      rw [hc] at hev
      simp at hev
      rcases hev with rfl | rfl
      · exact hsf.1
      · rfl
    · rw [hc]
      simp [hsf.2, mkSuccessEvent]
  | error fe =>
    obtain ⟨a3, m3, h3⟩ := logEvent_ok h env netE
      (mkErrorEvent rid ts3 (urlOf input) (methodOf init) fe (jsRound (t2 - t0)))
    have hc : (wrappedFetch env cfg rid ts1 ts2 ts3 t0 t1 t2 input init jsonParse
        netS netT netE (Except.error fe)).constructed =
        [mkStartEvent cfg rid ts1 (urlOf input) (methodOf init) init jsonParse,
         mkErrorEvent rid ts3 (urlOf input) (methodOf init) fe
           (jsRound (t2 - t0))] := by
      simp [wrappedFetch, h1, h3]
    refine ⟨by rw [hc]; rfl, ?_, ?_⟩
    · intro ev hev
      rw [hc] at hev
      simp at hev
      rcases hev with rfl | rfl
      · exact hsf.1
      · rfl
    · rw [hc]
      simp [hsf.2, mkErrorEvent]

/-- Witness for the amended C8 at a concrete resolving call. -/
theorem c8_request_lifecycle_witness :
    HookSafe defaultConfig ∧
    ((wrappedFetch envClient defaultConfig "r1" "T1" "T2" "T3" 0 5 6
        (FetchInput.str "https://a.example/x") none (fun _ => none)
        netOk netOk netOk (Except.ok resp0)).constructed =
      [mkStartEvent defaultConfig "r1" "T1"
        (urlOf (FetchInput.str "https://a.example/x")) (methodOf none) none
        (fun _ => none),
       mkSuccessEvent "r1" "T2" (urlOf (FetchInput.str "https://a.example/x"))
        (methodOf none) resp0 (jsRound (5 - 0))] ∧
     (∀ ev ∈ (wrappedFetch envClient defaultConfig "r1" "T1" "T2" "T3" 0 5 6
        (FetchInput.str "https://a.example/x") none (fun _ => none)
        netOk netOk netOk (Except.ok resp0)).constructed, ev.requestId = "r1") ∧
     (wrappedFetch envClient defaultConfig "r1" "T1" "T2" "T3" 0 5 6
        (FetchInput.str "https://a.example/x") none (fun _ => none)
        netOk netOk netOk (Except.ok resp0)).constructed.map RequestEvent.event =
      [EventKind.start, EventKind.success]) :=
  ⟨hookSafe_defaultConfig,
    c8_request_lifecycle envClient defaultConfig "r1" "T1" "T2" "T3" 0 5 6
      (FetchInput.str "https://a.example/x") none (fun _ => none)
      netOk netOk netOk (Except.ok resp0) hookSafe_defaultConfig⟩

/-! ## Claim C9 -/

/-- Claim C9, counterexample: two client-side transmission failures in one
development session produce two console warnings — the code has no
once-per-session throttle. -/
theorem c9_console_warning_every_failure :
    ((sendToServerAPI envClientDev defaultConfig netFail ev0) ++
      (sendToServerAPI envClientDev defaultConfig netFail ev0)).countP
        (fun em => match em with
          | Emission.consoleWarnFail _ => true
          | _ => false) = 2 ∧
    ¬ (2 ≤ 1) :=
  ⟨by decide, by decide⟩

/-- Claim C9 (amended): a client-side transmission failure is handled
inside `sendToServerAPI` and never propagated — dispatch still succeeds for
every transmission outcome when the hooks are safe; if `onError` is set it
is invoked with the failure, otherwise a console warning is shown in
development on every failure (not throttled), and outside development
nothing is reported. -/
theorem c9_transmission_failure_local (env : JsEnv) (cfg : LoggerConfig)
    (net : Except JsError Unit) (ev : RequestEvent)
    (hc : isClient env = true) (hep : cfg.clientLogEndpoint ≠ "") :
    (∀ e f, net = Except.error e → cfg.onError = some f →
      sendToServerAPI env cfg net ev =
        [Emission.post cfg.clientLogEndpoint ev, Emission.onErrorCall e]) ∧
    (∀ e, net = Except.error e → cfg.onError = none → isDev env = true →
      sendToServerAPI env cfg net ev =
        [Emission.post cfg.clientLogEndpoint ev, Emission.consoleWarnFail e]) ∧
    (∀ e, net = Except.error e → cfg.onError = none → isDev env = false →
      sendToServerAPI env cfg net ev = [Emission.post cfg.clientLogEndpoint ev]) ∧
    (HookSafe cfg → ∃ ev2 ems, logEvent env cfg net ev = (ev2, Except.ok ems)) := by
  refine ⟨?_, ?_, ?_, fun hs => logEvent_ok hs env net ev⟩
  · rintro e f rfl hoe
    simp [sendToServerAPI, hc, hep, hoe]
  · rintro e rfl hoe hd
    simp [sendToServerAPI, hc, hep, hoe, hd]
  · rintro e rfl hoe hd
    simp [sendToServerAPI, hc, hep, hoe, hd]

/-- Witness for the amended C9: a failed transmission in a development
browser session with no `onError` yields the POST attempt and one console
warning, and dispatch still returns successfully. -/
theorem c9_transmission_failure_local_witness :
    isClient envClientDev = true ∧
    defaultConfig.clientLogEndpoint ≠ "" ∧
    ((∀ e f, netFail = Except.error e → defaultConfig.onError = some f →
      sendToServerAPI envClientDev defaultConfig netFail ev0 =
        [Emission.post defaultConfig.clientLogEndpoint ev0,
         Emission.onErrorCall e]) ∧
     (∀ e, netFail = Except.error e → defaultConfig.onError = none →
      isDev envClientDev = true →
      sendToServerAPI envClientDev defaultConfig netFail ev0 =
        [Emission.post defaultConfig.clientLogEndpoint ev0,
         Emission.consoleWarnFail e]) ∧
     (∀ e, netFail = Except.error e → defaultConfig.onError = none →
      isDev envClientDev = false →
      sendToServerAPI envClientDev defaultConfig netFail ev0 =
        [Emission.post defaultConfig.clientLogEndpoint ev0]) ∧
     (HookSafe defaultConfig → ∃ ev2 ems,
        logEvent envClientDev defaultConfig netFail ev0 = (ev2, Except.ok ems))) :=
  ⟨rfl, by decide,
    c9_transmission_failure_local envClientDev defaultConfig netFail ev0
      rfl (by decide)⟩

/-! ## Claim C10 -/

/-- Claim C10: when a `contextProvider` is configured (and returns, and the
event is not filtered out), `logEvent` reassigns the caller's event's
`context` field in place to the merge of the existing context with the
provider's output — provider values winning on key collision, every other
field untouched (the record update changes only `context`); with no
`contextProvider`, or for a filtered event, the caller's event is not
mutated at all. -/
theorem c10_logEvent_context_mutation (env : JsEnv) (cfg : LoggerConfig)
    (net : Except JsError Unit) (ev : RequestEvent) :
    (∀ p c, cfg.contextProvider = some p → p () = Except.ok c →
      shouldLog cfg ev.url = true →
      (logEvent env cfg net ev).1
        = { ev with context := some (mergeCtx (ev.context.getD []) c) }) ∧
    (∀ (a b : Ctx) (k v : String), ctxLookup k b = some v →
      ctxLookup k (mergeCtx a b) = some v) ∧
    (∀ (a b : Ctx) (k : String), ctxLookup k b = none →
      ctxLookup k (mergeCtx a b) = ctxLookup k a) ∧
    (cfg.contextProvider = none → (logEvent env cfg net ev).1 = ev) ∧
    (shouldLog cfg ev.url = false → (logEvent env cfg net ev).1 = ev) := by
  refine ⟨?_, fun a b k v hv => ctxLookup_mergeCtx_right k a b v hv,
    fun a b k hn => ctxLookup_mergeCtx_left k a b hn, ?_, ?_⟩
  · intro p c hp hc hs
    simp [logEvent, hs, hp, hc]
  · intro hp
    unfold logEvent
    by_cases hs : shouldLog cfg ev.url
    · simp [hs, hp]
    · simp [hs]
  · intro hs
    simp [logEvent, hs]

/-- Witness for C10: a provider returning one field makes `logEvent` hand
back the same event with only `context` changed to the merge. -/
theorem c10_logEvent_context_mutation_witness :
    cfgProv.contextProvider = some provFn ∧
    provFn () = Except.ok [("user", "u1")] ∧
    shouldLog cfgProv ev0.url = true ∧
    (logEvent envClient cfgProv netOk ev0).1
      = { ev0 with context := some (mergeCtx (ev0.context.getD []) [("user", "u1")]) } :=
  ⟨rfl, rfl, by decide,
    (c10_logEvent_context_mutation envClient cfgProv netOk ev0).1 provFn
      [("user", "u1")] rfl rfl (by decide)⟩

end NextAutoLogger
